import Mathlib

/-!
Shallow embedding of the `conf` Go package: typed configuration loading from
multiple value sources (environment, command-line flags) composed by priority,
with a reflection-driven binder mapping struct fields to named parameters.

Go pointers to caller-owned slots are modelled as `Nat` addresses into an
explicit `Heap` (one address space per primitive kind, as Go pointers are
typed).  Go maps are modelled as association lists with replace-on-rekey
insertion, which fixes one iteration order (Go's map iteration order is
unspecified; any fixed order is a valid refinement).  Fallible Go code
returns an explicit error channel; Go runtime panics are modelled as a
distinct `Err.gopanic` outcome so that "returns an error" and "panics" are
distinguishable.  Go `int` is modelled as `Int` (no claim below depends on
64-bit overflow, and `strconv.Atoi`'s range check is not exercised).
-/

namespace Conf

/-- The subset of `reflect.Kind` values that ever occur in a `typ`. -/
inductive Kind where
  | str
  | int
  | bool
deriving DecidableEq, Repr

/-- Outcome channel: a Go `error` return, or a runtime panic. -/
inductive Err where
  | failure (msg : String)
  | gopanic (msg : String)
deriving DecidableEq, Repr

/-- The mutable store holding every caller-owned destination slot.
Go pointers are typed, so each primitive kind has its own address space. -/
structure Heap where
  strs : Nat → String
  ints : Nat → Int
  bools : Nat → Bool

def Heap.setStr (h : Heap) (a : Nat) (v : String) : Heap :=
  { h with strs := fun x => if x = a then v else h.strs x }

def Heap.setInt (h : Heap) (a : Nat) (v : Int) : Heap :=
  { h with ints := fun x => if x = a then v else h.ints x }

def Heap.setBool (h : Heap) (a : Nat) (v : Bool) : Heap :=
  { h with bools := fun x => if x = a then v else h.bools x }

/-- The all-zero heap: every slot holds its Go zero value. -/
def heap0 : Heap := ⟨fun _ => "", fun _ => 0, fun _ => false⟩

/-- Go `typ` struct: a kind tag plus one (possibly nil) typed destination
pointer per primitive kind. -/
structure typ where
  kind : Kind
  intVal : Option Nat := none
  stringVal : Option Nat := none
  boolVal : Option Nat := none
deriving DecidableEq, Repr

/-- Go `typ.Empty`: a string destination is empty when the pointer is nil or
the referenced slot is `""`; int and bool destinations are empty only when
the pointer itself is nil. -/
def typ.Empty (t : typ) (h : Heap) : Bool :=
  match t.kind with
  | .str =>
      match t.stringVal with
      | none => true
      | some a => h.strs a = ""
  | .int => t.intVal.isNone
  | .bool => t.boolVal.isNone

/-- Go map assignment `m[k] = v`, determinized as an association list that
replaces in place on an existing key and appends otherwise. -/
def setA {α : Type} (m : List (String × α)) (k : String) (v : α) : List (String × α) :=
  match m with
  | [] => [(k, v)]
  | (k', v') :: rest => if k' = k then (k, v) :: rest else (k', v') :: setA rest k v

/-- Go map lookup `m[k]`. -/
def getA {α : Type} (m : List (String × α)) (k : String) : Option α :=
  match m with
  | [] => none
  | (k', v') :: rest => if k' = k then some v' else getA rest k

/-- Go `strings.Join(elems, sep)`. -/
def goJoin (sep : String) : List String → String
  | [] => ""
  | [x] => x
  | x :: xs => x ++ sep ++ goJoin sep xs

/-- One decimal digit character. -/
def digitChar (d : Nat) : Char :=
  if d = 0 then '0' else if d = 1 then '1' else if d = 2 then '2'
  else if d = 3 then '3' else if d = 4 then '4' else if d = 5 then '5'
  else if d = 6 then '6' else if d = 7 then '7' else if d = 8 then '8' else '9'

/-- Fuel-driven digit expansion (structural recursion so that the kernel can
evaluate it); `fuel > n` always suffices. -/
def natDigitsAux : Nat → Nat → List Char
  | 0, _ => []
  | fuel + 1, n =>
      if n < 10 then [digitChar n]
      else natDigitsAux fuel (n / 10) ++ [digitChar (n % 10)]

/-- Decimal digit string of a natural number, most significant first. -/
def natDigits (n : Nat) : List Char := natDigitsAux (n + 1) n

/-- Go `fmt.Sprintf("%d", i)`. -/
def intToString (i : Int) : String :=
  if i < 0 then String.mk ('-' :: natDigits i.natAbs) else String.mk (natDigits i.toNat)

/-- Decimal rendering of a natural (for `%d` on line numbers). -/
def natToString (n : Nat) : String := String.mk (natDigits n)

/-- ASCII whitespace for the `strings.TrimSpace` model. -/
def isSpaceChar (c : Char) : Bool :=
  c = ' ' ∨ c = '\t' ∨ c = '\n' ∨ c = '\r'

/-- Go `strings.TrimSpace` (ASCII whitespace). -/
def goTrim (s : String) : String :=
  String.mk (((s.data.dropWhile isSpaceChar).reverse.dropWhile isSpaceChar).reverse)

/-- Go `strings.HasPrefix`. -/
def goHasPrefix (s pre : String) : Bool :=
  pre.data.isPrefixOf s.data

/-- Go `strings.Split` with a one-character separator, over char lists:
always returns at least one group. -/
def splitChar (sep : Char) : List Char → List (List Char)
  | [] => [[]]
  | c :: rest =>
      let r := splitChar sep rest
      if c = sep then [] :: r
      else
        match r with
        | [] => [[c]]
        | g :: gs => (c :: g) :: gs

/-- Go `strings.Split(s, sep)` for a one-character separator. -/
def goSplit (s : String) (sep : Char) : List String :=
  (splitChar sep s.data).map String.mk

/-- ASCII upper-casing of one character. -/
def asciiUpper (c : Char) : Char :=
  if 'a' ≤ c ∧ c ≤ 'z' then Char.ofNat (c.toNat - 32) else c

/-- Numeric value of a decimal digit string. -/
def digitsVal (l : List Char) : Nat :=
  l.foldl (fun acc c => acc * 10 + (c.toNat - 48)) 0

/-- Go `strconv.Atoi`: an optional sign followed by at least one decimal
digit (the int64 range check is not modelled). -/
def Atoi (s : String) : Except String Int :=
  let err : Except String Int :=
    .error ("strconv.Atoi: parsing \x22" ++ s ++ "\x22: invalid syntax")
  match s.data with
  | [] => err
  | c :: cs =>
      if c = '+' then
        if cs ≠ [] ∧ cs.all Char.isDigit then .ok (digitsVal cs) else err
      else if c = '-' then
        if cs ≠ [] ∧ cs.all Char.isDigit then .ok (-(digitsVal cs : Int)) else err
      else
        if (c :: cs).all Char.isDigit then .ok (digitsVal (c :: cs)) else err

/-- Go `strconv.ParseBool`: the exact accepted literal forms. -/
def ParseBool (s : String) : Except String Bool :=
  if s = "1" ∨ s = "t" ∨ s = "T" ∨ s = "true" ∨ s = "TRUE" ∨ s = "True" then .ok true
  else if s = "0" ∨ s = "f" ∨ s = "F" ∨ s = "false" ∨ s = "FALSE" ∨ s = "False" then .ok false
  else .error ("strconv.ParseBool: parsing \x22" ++ s ++ "\x22: invalid syntax")

/-- `EnvProvider` name normalization: `strings.ToUpper(strings.ReplaceAll(name, "-", "_"))`. -/
def envNormalize (name : String) : String :=
  String.mk ((name.data.map fun c => if c = '-' then '_' else c).map asciiUpper)

/-- `FlagProvider.normalizeName`: `strings.ReplaceAll(name, "_", "-")`. -/
def flagNormalize (name : String) : String :=
  String.mk (name.data.map fun c => if c = '_' then '-' else c)

/-- A `.env` stream (`io.ReadCloser`): its lines, how many lines have been
consumed, and whether `Close` has been called. -/
structure Reader where
  lines : List String
  pos : Nat := 0
  closed : Bool := false
deriving DecidableEq, Repr

/-- Go `dotenv.ParseReader` over the line-split stream contents: returns the
number of lines the scanner consumed together with the parsed map or the
first malformed-line error.  Lines are trimmed; `#`-prefixed and empty lines
are skipped; the value is everything after the first `=` (re-joined, untrimmed,
when the line holds several `=`; trimmed when it holds exactly one). -/
def parseLines : Nat → List (String × String) → List String → Nat × Except String (List (String × String))
  | _, m, [] => (0, .ok m)
  | nr, m, l :: rest =>
      let line := goTrim l
      if goHasPrefix line "#" ∨ line = "" then
        let r := parseLines (nr + 1) m rest
        (r.1 + 1, r.2)
      else
        match goSplit line '=' with
        | [] => (1, .error ("malformed line " ++ natToString nr ++ ": " ++ line))
        | [_] => (1, .error ("malformed line " ++ natToString nr ++ ": " ++ line))
        | p0 :: p1 :: ptail =>
            let key := goTrim p0
            let value := if ptail.isEmpty then goTrim p1 else goJoin "=" (p1 :: ptail)
            let r := parseLines (nr + 1) (setA m key value) rest
            (r.1 + 1, r.2)

/-- `EnvProvider` state. `fileLines` models the contents of the on-disk
`.env` file consulted when no stream was supplied (`none` = no such file). -/
structure EnvProvider where
  withDotEnv : Bool := false
  dotEnvReader : Option Reader := none
  fileLines : Option (List String) := none
  getenv : String → String
  m : List (String × typ) := []
  fallbacks : List (String × String) := []
  required : List String := []
  missing : List String := []

def NewEnvProvider (getenv : String → String) : EnvProvider :=
  { getenv := getenv }

/-- `EnvProvider.WithDotEnv`: enables the overlay; a non-nil reader replaces
the stored one. -/
def EnvProvider.WithDotEnv (p : EnvProvider) (r : Option Reader) : EnvProvider :=
  { p with withDotEnv := true,
           dotEnvReader := match r with | some rr => some rr | none => p.dotEnvReader }

def EnvProvider.StringVar (p : EnvProvider) (toAddr : Nat) (name fallback : String)
    (required : Bool) : EnvProvider :=
  { p with m := setA p.m name { kind := .str, stringVal := some toAddr },
           fallbacks := if fallback ≠ "" then setA p.fallbacks name fallback else p.fallbacks,
           required := if required then p.required ++ [name] else p.required }

def EnvProvider.IntVar (p : EnvProvider) (toAddr : Nat) (name : String) (fallback : Int)
    (required : Bool) : EnvProvider :=
  { p with m := setA p.m name { kind := .int, intVal := some toAddr },
           fallbacks := if fallback ≠ 0 then setA p.fallbacks name (intToString fallback) else p.fallbacks,
           required := if required then p.required ++ [name] else p.required }

def EnvProvider.BoolVar (p : EnvProvider) (toAddr : Nat) (name : String) (fallback : Bool)
    (required : Bool) : EnvProvider :=
  { p with m := setA p.m name { kind := .bool, boolVal := some toAddr },
           fallbacks := setA p.fallbacks name (if fallback then "true" else "false"),
           required := if required then p.required ++ [name] else p.required }

def EnvProvider.Missing (p : EnvProvider) : List String := p.missing

/-- `EnvProvider.AddDotEnv`: parse the stream (or the `.env` file) and overlay
the result in front of `getenv`.  On the stream path the reader is closed
only after a successful parse — a parse error returns without closing. -/
def EnvProvider.AddDotEnv (p : EnvProvider) : EnvProvider × Option Err :=
  match p.dotEnvReader with
  | some r =>
      let res := parseLines 1 [] r.lines
      let r' : Reader := { r with pos := res.1 }
      match res.2 with
      | .error e =>
          ({ p with dotEnvReader := some r' },
           some (.failure ("failed to parse .env file: " ++ e)))
      | .ok dotenvs =>
          let r'' : Reader := { r' with closed := true }
          let g := p.getenv
          ({ p with dotEnvReader := some r'',
                    getenv := fun name =>
                      match getA dotenvs name with
                      | some v => v
                      | none => g name }, none)
  | none =>
      match p.fileLines with
      | none =>
          (p, some (.failure
            "failed to parse .env file: failed to open file: open .env: no such file or directory"))
      | some ls =>
          let res := parseLines 1 [] ls
          match res.2 with
          | .error e =>
              (p, some (.failure ("failed to parse .env file: error reading .env: " ++ e)))
          | .ok dotenvs =>
              let g := p.getenv
              ({ p with getenv := fun name =>
                          match getA dotenvs name with
                          | some v => v
                          | none => g name }, none)

/-- The raw value `EnvProvider.Load` resolves for a name: the (normalized)
lookup, with the registered fallback substituted when the lookup is empty. -/
def envRawOf (g : String → String) (fb : List (String × String)) (n : String) : String :=
  let raw0 := g n
  if raw0 = "" then
    match getA fb n with
    | some f => f
    | none => raw0
  else raw0

/-- One iteration of the resolution loop of `EnvProvider.Load`: resolve the
raw value; when empty, record the name as missing if required and leave the
slot alone; otherwise coerce into the destination's kind, a coercion failure
being a hard abort (and a nil destination pointer a Go nil-dereference
panic). -/
def envStep (g : String → String) (fb : List (String × String)) (req : List String)
    (n : String) (t : typ) (miss : List String) (h : Heap) :
    List String × Heap × Option Err :=
  let raw := envRawOf g fb n
  if raw = "" then
    (if n ∈ req then miss ++ [n] else miss, h, none)
  else
    match t.kind with
    | .str =>
        match t.stringVal with
        | some a => (miss, h.setStr a raw, none)
        | none => (miss, h, some (.gopanic "runtime error: invalid memory address or nil pointer dereference"))
    | .int =>
        match Atoi raw with
        | .error e => (miss, h, some (.failure ("failed to parse " ++ n ++ " as int: " ++ e)))
        | .ok v =>
            match t.intVal with
            | some a => (miss, h.setInt a v, none)
            | none => (miss, h, some (.gopanic "runtime error: invalid memory address or nil pointer dereference"))
    | .bool =>
        match ParseBool raw with
        | .error e => (miss, h, some (.failure ("failed to parse " ++ n ++ " as bool: " ++ e)))
        | .ok v =>
            match t.boolVal with
            | some a => (miss, h.setBool a v, none)
            | none => (miss, h, some (.gopanic "runtime error: invalid memory address or nil pointer dereference"))

/-- The resolution loop of `EnvProvider.Load` over the registration list,
threading the missing list and the heap and aborting on the first error. -/
def envLoop (g : String → String) (fb : List (String × String)) (req : List String) :
    List (String × typ) → List String → Heap → List String × Heap × Option Err
  | [], miss, h => (miss, h, none)
  | (n, t) :: rest, miss, h =>
      let s := envStep g fb req n t miss h
      match s.2.2 with
      | some e => (s.1, s.2.1, some e)
      | none => envLoop g fb req rest s.1 s.2.1

/-- `EnvProvider.Load`: optional dotenv overlay, then resolution of every
registered name through the normalizing lookup.  State mutations made before
an abort persist (pointer-receiver semantics). -/
def EnvProvider.Load (p : EnvProvider) (h : Heap) : EnvProvider × Heap × Option Err :=
  let step : EnvProvider × Option Err :=
    if p.withDotEnv then p.AddDotEnv else (p, none)
  match step with
  | (p1, some (.failure e)) => (p1, h, some (.failure ("failed to add .env file: " ++ e)))
  | (p1, some pe) => (p1, h, some pe)
  | (p1, none) =>
      let g := fun name => p1.getenv (envNormalize name)
      let r := envLoop g p1.fallbacks p1.required p1.m p1.missing h
      ({ p1 with missing := r.1 }, r.2.1, r.2.2)

/-- One registered flag in a `flag.FlagSet`: its kind and destination. -/
structure FlagDef where
  kind : Kind
  addr : Nat
deriving DecidableEq, Repr

/-- `flag.FlagSet` state: the registered flags and, after parsing, the
unconsumed argument tail (`fs.Args()`). -/
structure FlagSet where
  formal : List (String × FlagDef) := []
  args : List String := []
deriving Repr

/-- `flag.FlagSet.StringVar`: writes the default into the destination slot
immediately, then panics if a flag of that name is already defined. -/
def FlagSet.stringVar (fs : FlagSet) (h : Heap) (toAddr : Nat) (name value : String) :
    FlagSet × Heap × Option Err :=
  let h' := h.setStr toAddr value
  if (getA fs.formal name).isSome then
    (fs, h', some (.gopanic ("confflags flag redefined: " ++ name)))
  else
    ({ fs with formal := fs.formal ++ [(name, ⟨.str, toAddr⟩)] }, h', none)

/-- `flag.FlagSet.IntVar`: as `stringVar`, for an integer destination. -/
def FlagSet.intVar (fs : FlagSet) (h : Heap) (toAddr : Nat) (name : String) (value : Int) :
    FlagSet × Heap × Option Err :=
  let h' := h.setInt toAddr value
  if (getA fs.formal name).isSome then
    (fs, h', some (.gopanic ("confflags flag redefined: " ++ name)))
  else
    ({ fs with formal := fs.formal ++ [(name, ⟨.int, toAddr⟩)] }, h', none)

/-- `flag.FlagSet.BoolVar`: as `stringVar`, for a boolean destination. -/
def FlagSet.boolVar (fs : FlagSet) (h : Heap) (toAddr : Nat) (name : String) (value : Bool) :
    FlagSet × Heap × Option Err :=
  let h' := h.setBool toAddr value
  if (getA fs.formal name).isSome then
    (fs, h', some (.gopanic ("confflags flag redefined: " ++ name)))
  else
    ({ fs with formal := fs.formal ++ [(name, ⟨.bool, toAddr⟩)] }, h', none)

/-- Split a flag token body at the first `=` after position 0, Go style:
returns the flag name, the value characters, and whether a `=` was found. -/
def splitEq (c0 : Char) (cs : List Char) : List Char × List Char × Bool :=
  match cs with
  | [] => ([c0], [], false)
  | c :: rest =>
      if c = '=' then ([c0], rest, true)
      else
        let r := splitEq c rest
        (c0 :: r.1, r.2.1, r.2.2)

/-- One token of Go `flag.FlagSet.Parse` (`parseOne`): `.inl` terminates the
parse (stop at a non-flag token, the `--` terminator, or an error), `.inr`
hands the loop the updated heap and the arguments still to consume.  Handles
single- and double-dash prefixes, `-name=value`, value-taking flags that
consume the next token, and boolean flags defaulting to `true`. -/
def parseStep (formal : List (String × FlagDef)) (s : String) (rest : List String)
    (h : Heap) : (Heap × List String × Option Err) ⊕ (Heap × List String) :=
  if s.length < 2 ∨ s.data.head? ≠ some '-' then .inl (h, s :: rest, none)
  else
    let numMinuses : Nat := if s.data.get? 1 = some '-' then 2 else 1
    if numMinuses = 2 ∧ s.length = 2 then .inl (h, rest, none)
    else
      match s.data.drop numMinuses with
      | [] => .inl (h, rest, some (.failure ("bad flag syntax: " ++ s)))
      | c0 :: crest =>
          if c0 = '-' ∨ c0 = '=' then .inl (h, s :: rest, some (.failure ("bad flag syntax: " ++ s)))
          else
            let se := splitEq c0 crest
            let name := String.mk se.1
            let hasValue := se.2.2
            let eqValue := String.mk se.2.1
            match getA formal name with
            | none =>
                if name = "help" ∨ name = "h" then .inl (h, rest, some (.failure "flag: help requested"))
                else .inl (h, rest, some (.failure ("flag provided but not defined: -" ++ name)))
            | some d =>
                match d.kind with
                | .bool =>
                    let value := if hasValue then eqValue else "true"
                    match ParseBool value with
                    | .error _ =>
                        .inl (h, rest, some (.failure
                          ("invalid boolean value \x22" ++ value ++ "\x22 for -" ++ name ++ ": parse error")))
                    | .ok b => .inr (h.setBool d.addr b, rest)
                | .str =>
                    if hasValue then .inr (h.setStr d.addr eqValue, rest)
                    else
                      match rest with
                      | v :: rest' => .inr (h.setStr d.addr v, rest')
                      | [] => .inl (h, [], some (.failure ("flag needs an argument: -" ++ name)))
                | .int =>
                    if hasValue then
                      match Atoi eqValue with
                      | .error _ =>
                          .inl (h, rest, some (.failure
                            ("invalid value \x22" ++ eqValue ++ "\x22 for flag -" ++ name ++ ": parse error")))
                      | .ok v => .inr (h.setInt d.addr v, rest)
                    else
                      match rest with
                      | v :: rest' =>
                          match Atoi v with
                          | .error _ =>
                              (.inl (h, rest', some (.failure
                                ("invalid value \x22" ++ v ++ "\x22 for flag -" ++ name ++ ": parse error"))))
                          | .ok vi => .inr (h.setInt d.addr vi, rest')
                      | [] => .inl (h, [], some (.failure ("flag needs an argument: -" ++ name)))

/-- The token-consumption loop of Go `flag.FlagSet.Parse`
(`ContinueOnError`), fuel-driven for structural recursion: every step
consumes at least one token, so fuel equal to the token count always
suffices and the fuel-exhaustion branch is unreachable.  Errors are returned
(not panicked) and leave already-written values in place. -/
def parseLoopAux (formal : List (String × FlagDef)) :
    Nat → List String → Heap → Heap × List String × Option Err
  | _, [], h => (h, [], none)
  | 0, args, h => (h, args, none)
  | fuel + 1, s :: rest, h =>
      match parseStep formal s rest h with
      | .inl r => r
      | .inr (h', args') => parseLoopAux formal fuel args' h'

/-- Go `flag.FlagSet.Parse`: consume tokens until the first non-flag token,
a terminator, or an error, returning the final heap, the unconsumed
remainder (`fs.Args()`), and the error if any. -/
def parseLoop (formal : List (String × FlagDef)) (args : List String) (h : Heap) :
    Heap × List String × Option Err :=
  parseLoopAux formal args.length args h

/-- `FlagProvider` state.  `remainingCalls` records each invocation of the
configured remaining-tokens sink with its argument, so the theorems can
observe how often and with what the sink was called. -/
structure FlagProvider where
  m : List (String × typ) := []
  fs : FlagSet := {}
  required : List String := []
  missing : List String := []
  args : List String
  hasRemainingFunc : Bool := false
  remainingCalls : List (List String) := []
deriving Repr

def NewFlagProvider (args : List String) : FlagProvider :=
  { args := args }

def FlagProvider.WithRemainingFunc (p : FlagProvider) : FlagProvider :=
  { p with hasRemainingFunc := true }

def FlagProvider.StringVar (p : FlagProvider) (h : Heap) (toAddr : Nat)
    (name fallback : String) (required : Bool) : FlagProvider × Heap × Option Err :=
  let name := flagNormalize name
  let m' := setA p.m name { kind := .str, stringVal := some toAddr }
  let r := p.fs.stringVar h toAddr name fallback
  match r.2.2 with
  | some pe => ({ p with m := m' }, r.2.1, some pe)
  | none =>
      ({ p with m := m', fs := r.1,
                required := if required then p.required ++ [name] else p.required },
       r.2.1, none)

def FlagProvider.IntVar (p : FlagProvider) (h : Heap) (toAddr : Nat)
    (name : String) (fallback : Int) (required : Bool) : FlagProvider × Heap × Option Err :=
  let name := flagNormalize name
  let m' := setA p.m name { kind := .int, intVal := some toAddr }
  let r := p.fs.intVar h toAddr name fallback
  match r.2.2 with
  | some pe => ({ p with m := m' }, r.2.1, some pe)
  | none =>
      ({ p with m := m', fs := r.1,
                required := if required then p.required ++ [name] else p.required },
       r.2.1, none)

def FlagProvider.BoolVar (p : FlagProvider) (h : Heap) (toAddr : Nat)
    (name : String) (fallback : Bool) (required : Bool) : FlagProvider × Heap × Option Err :=
  let name := flagNormalize name
  let m' := setA p.m name { kind := .bool, boolVal := some toAddr }
  let r := p.fs.boolVar h toAddr name fallback
  match r.2.2 with
  | some pe => ({ p with m := m' }, r.2.1, some pe)
  | none =>
      ({ p with m := m', fs := r.1,
                required := if required then p.required ++ [name] else p.required },
       r.2.1, none)

/-- The shared missing-name computation of `FlagProvider.Load` and
`PriorityProvider.Load`: a registered name is appended when its destination
is `Empty` and the name is required. -/
def missingLoop (h : Heap) (req : List String) :
    List (String × typ) → List String → List String
  | [], miss => miss
  | (n, t) :: rest, miss =>
      missingLoop h req rest (if t.Empty h ∧ n ∈ req then miss ++ [n] else miss)

/-- `FlagProvider.Load`: parse the argument list (wrapping any parse error),
compute the missing list, then invoke the remaining-tokens sink once with
`fs.Args()` when one is configured. -/
def FlagProvider.Load (p : FlagProvider) (h : Heap) : FlagProvider × Heap × Option Err :=
  let r := parseLoop p.fs.formal p.args h
  let p1 := { p with fs := { p.fs with args := r.2.1 } }
  match r.2.2 with
  | some (.failure msg) => (p1, r.1, some (.failure ("failed to parse flags: " ++ msg)))
  | some pe => (p1, r.1, some pe)
  | none =>
      let miss := missingLoop r.1 p1.required p1.m p1.missing
      let calls :=
        if p1.hasRemainingFunc then p1.remainingCalls ++ [r.2.1] else p1.remainingCalls
      ({ p1 with missing := miss, remainingCalls := calls }, r.1, none)

def FlagProvider.Missing (p : FlagProvider) : List String := p.missing

/-- A member of a `PriorityProvider`: one of the repository's two concrete
`Provider` implementations. -/
inductive Member where
  | envm (e : EnvProvider)
  | flagm (f : FlagProvider)

/-- The Go `%T` type name of a member, used in the composer's error wrap. -/
def Member.typeName : Member → String
  | .envm _ => "*conf.EnvProvider"
  | .flagm _ => "*conf.FlagProvider"

def Member.StringVar : Member → Heap → Nat → String → String → Bool → Member × Heap × Option Err
  | .envm e, h, toAddr, name, fallback, required =>
      (.envm (e.StringVar toAddr name fallback required), h, none)
  | .flagm f, h, toAddr, name, fallback, required =>
      let r := f.StringVar h toAddr name fallback required
      (.flagm r.1, r.2.1, r.2.2)

def Member.IntVar : Member → Heap → Nat → String → Int → Bool → Member × Heap × Option Err
  | .envm e, h, toAddr, name, fallback, required =>
      (.envm (e.IntVar toAddr name fallback required), h, none)
  | .flagm f, h, toAddr, name, fallback, required =>
      let r := f.IntVar h toAddr name fallback required
      (.flagm r.1, r.2.1, r.2.2)

def Member.BoolVar : Member → Heap → Nat → String → Bool → Bool → Member × Heap × Option Err
  | .envm e, h, toAddr, name, fallback, required =>
      (.envm (e.BoolVar toAddr name fallback required), h, none)
  | .flagm f, h, toAddr, name, fallback, required =>
      let r := f.BoolVar h toAddr name fallback required
      (.flagm r.1, r.2.1, r.2.2)

def Member.Load : Member → Heap → Member × Heap × Option Err
  | .envm e, h => let r := e.Load h; (.envm r.1, r.2.1, r.2.2)
  | .flagm f, h => let r := f.Load h; (.flagm r.1, r.2.1, r.2.2)

def Member.Missing : Member → List String
  | .envm e => e.Missing
  | .flagm f => f.Missing

/-- `PriorityProvider` state: the ordered member list plus the composer's own
bookkeeping mirroring the members' registrations. -/
structure PriorityProvider where
  m : List (String × typ) := []
  providers : List Member
  required : List String := []
  missing : List String := []

def NewPriorityProvider (providers : List Member) : PriorityProvider :=
  { providers := providers }

/-- Broadcast one registration call to every member in order; a member panic
propagates immediately. -/
def broadcast (reg : Member → Heap → Member × Heap × Option Err) :
    List Member → Heap → List Member × Heap × Option Err
  | [], h => ([], h, none)
  | mem :: rest, h =>
      let r := reg mem h
      match r.2.2 with
      | some pe => (r.1 :: rest, r.2.1, some pe)
      | none =>
          let rr := broadcast reg rest r.2.1
          (r.1 :: rr.1, rr.2.1, rr.2.2)

def PriorityProvider.StringVar (p : PriorityProvider) (h : Heap) (toAddr : Nat)
    (name fallback : String) (required : Bool) : PriorityProvider × Heap × Option Err :=
  let r := broadcast (fun mem hh => mem.StringVar hh toAddr name fallback required) p.providers h
  match r.2.2 with
  | some pe => ({ p with providers := r.1 }, r.2.1, some pe)
  | none =>
      ({ p with providers := r.1,
                m := setA p.m name { kind := .str, stringVal := some toAddr },
                required := if required then p.required ++ [name] else p.required },
       r.2.1, none)

def PriorityProvider.IntVar (p : PriorityProvider) (h : Heap) (toAddr : Nat)
    (name : String) (fallback : Int) (required : Bool) : PriorityProvider × Heap × Option Err :=
  let r := broadcast (fun mem hh => mem.IntVar hh toAddr name fallback required) p.providers h
  match r.2.2 with
  | some pe => ({ p with providers := r.1 }, r.2.1, some pe)
  | none =>
      ({ p with providers := r.1,
                m := setA p.m name { kind := .int, intVal := some toAddr },
                required := if required then p.required ++ [name] else p.required },
       r.2.1, none)

def PriorityProvider.BoolVar (p : PriorityProvider) (h : Heap) (toAddr : Nat)
    (name : String) (fallback : Bool) (required : Bool) : PriorityProvider × Heap × Option Err :=
  let r := broadcast (fun mem hh => mem.BoolVar hh toAddr name fallback required) p.providers h
  match r.2.2 with
  | some pe => ({ p with providers := r.1 }, r.2.1, some pe)
  | none =>
      ({ p with providers := r.1,
                m := setA p.m name { kind := .bool, boolVal := some toAddr },
                required := if required then p.required ++ [name] else p.required },
       r.2.1, none)

/-- Load each member strictly in list order, aborting on (and wrapping) the
first member failure. -/
def loadMembers : List Member → Heap → List Member × Heap × Option Err
  | [], h => ([], h, none)
  | mem :: rest, h =>
      let r := mem.Load h
      match r.2.2 with
      | some (.failure msg) =>
          (r.1 :: rest, r.2.1,
           some (.failure ("failed to load configuration with " ++ mem.typeName ++ ": " ++ msg)))
      | some pe => (r.1 :: rest, r.2.1, some pe)
      | none =>
          let rr := loadMembers rest r.2.1
          (r.1 :: rr.1, rr.2.1, rr.2.2)

/-- `PriorityProvider.Load`: members load in order, then the composer
recomputes its own missing list against the final shared slots. -/
def PriorityProvider.Load (p : PriorityProvider) (h : Heap) :
    PriorityProvider × Heap × Option Err :=
  let r := loadMembers p.providers h
  match r.2.2 with
  | some pe => ({ p with providers := r.1 }, r.2.1, some pe)
  | none =>
      ({ p with providers := r.1,
                missing := missingLoop r.2.1 p.required p.m p.missing },
       r.2.1, none)

def PriorityProvider.Missing (p : PriorityProvider) : List String := p.missing

/-- The provider chosen by the load orchestrator: a single concrete source
(the default is a plain environment source) or a priority composition
(the `WithProviders` option). -/
inductive Prov where
  | memb (mem : Member)
  | prio (p : PriorityProvider)

def Prov.StringVar : Prov → Heap → Nat → String → String → Bool → Prov × Heap × Option Err
  | .memb mem, h, toAddr, name, fallback, required =>
      let r := mem.StringVar h toAddr name fallback required
      (.memb r.1, r.2.1, r.2.2)
  | .prio p, h, toAddr, name, fallback, required =>
      let r := p.StringVar h toAddr name fallback required
      (.prio r.1, r.2.1, r.2.2)

def Prov.IntVar : Prov → Heap → Nat → String → Int → Bool → Prov × Heap × Option Err
  | .memb mem, h, toAddr, name, fallback, required =>
      let r := mem.IntVar h toAddr name fallback required
      (.memb r.1, r.2.1, r.2.2)
  | .prio p, h, toAddr, name, fallback, required =>
      let r := p.IntVar h toAddr name fallback required
      (.prio r.1, r.2.1, r.2.2)

def Prov.BoolVar : Prov → Heap → Nat → String → Bool → Bool → Prov × Heap × Option Err
  | .memb mem, h, toAddr, name, fallback, required =>
      let r := mem.BoolVar h toAddr name fallback required
      (.memb r.1, r.2.1, r.2.2)
  | .prio p, h, toAddr, name, fallback, required =>
      let r := p.BoolVar h toAddr name fallback required
      (.prio r.1, r.2.1, r.2.2)

def Prov.Load : Prov → Heap → Prov × Heap × Option Err
  | .memb mem, h => let r := mem.Load h; (.memb r.1, r.2.1, r.2.2)
  | .prio p, h => let r := p.Load h; (.prio r.1, r.2.1, r.2.2)

def Prov.Missing : Prov → List String
  | .memb mem => mem.Missing
  | .prio p => p.Missing

/-- `parseTag`: first comma-separated token is the name; `required` anywhere
among the tokens sets the flag; the last `default=`-prefixed token after the
name supplies the fallback literal. -/
def parseTag (tag : String) : String × Bool × String :=
  let parts := goSplit tag ','
  let name := match parts with | [] => "" | p :: _ => p
  let required := parts.contains "required"
  let fallback := (parts.drop 1).foldl
    (fun acc part => if goHasPrefix part "default=" then String.mk (part.data.drop 8) else acc)
    ""
  (name, required, fallback)

/-- A leaf field of the caller's record, as the binder's depth-first
reflection walk reaches it: a primitive field (with its exported-ness, kind,
raw `conf` tag and slot address) or a field of an unsupported kind.  A
nested record field is recursed into with no other effect (its own tag is
ignored), so a record is modelled by its depth-first sequence of leaf
fields. -/
inductive Field where
  | prim (exported : Bool) (kind : Kind) (tag : String) (addr : Nat)
  | other (tag : String)

/-- Go `reflect.Value.Interface` on the address of a field: panics when the
field is unexported (modelled from the documented reflect semantics). -/
def reflectInterfaceMsg : String :=
  "reflect.Value.Interface: cannot return value obtained from unexported field or method"

/-- `loadConfig.LoadField` on a leaf field: skip untagged fields and
unsupported kinds; parse the tag; parse the default literal by the field's
kind (a malformed default is a binding error); then register the field's
address, which panics for an unexported field (`reflect.Value.Interface`). -/
def LoadField (c : Prov) (h : Heap) : Field → Prov × Heap × Option Err
  | .other _ => (c, h, none)
  | .prim exported k tag a =>
      if tag = "" then (c, h, none)
      else
        let pt := parseTag tag
        let name := pt.1
        let required := pt.2.1
        let fallback := pt.2.2
        match k with
        | .int =>
            match (if fallback ≠ "" then Atoi fallback else .ok 0) with
            | .error e =>
                (c, h, some (.failure
                  ("failed to parse fallback value \x22" ++ fallback ++ "\x22 as int: " ++ e)))
            | .ok fi =>
                if exported then c.IntVar h a name fi required
                else (c, h, some (.gopanic reflectInterfaceMsg))
        | .str =>
            if exported then c.StringVar h a name fallback required
            else (c, h, some (.gopanic reflectInterfaceMsg))
        | .bool =>
            match (if fallback ≠ "" then ParseBool fallback else .ok false) with
            | .error e =>
                (c, h, some (.failure
                  ("failed to parse fallback value \x22" ++ fallback ++ "\x22 as bool: " ++ e)))
            | .ok fb =>
                if exported then c.BoolVar h a name fb required
                else (c, h, some (.gopanic reflectInterfaceMsg))

/-- The field walk of the top-level `Load` over a record's leaf fields in
depth-first order, aborting on the first binding failure. -/
def bindFields (c : Prov) (h : Heap) : List Field → Prov × Heap × Option Err
  | [] => (c, h, none)
  | f :: rest =>
      let r := LoadField c h f
      match r.2.2 with
      | some pe => (r.1, r.2.1, some pe)
      | none => bindFields r.1 r.2.1 rest

/-- The top-level `Load(cfg, opts...)` on a pointer-to-struct record: bind
every field, run the chosen provider's `Load` (wrapping a failure), then turn
a non-empty missing list into one aggregate comma-joined failure. -/
def Load (record : List Field) (c : Prov) (h : Heap) : Prov × Heap × Option Err :=
  let b := bindFields c h record
  match b.2.2 with
  | some pe => (b.1, b.2.1, some pe)
  | none =>
      let r := Prov.Load b.1 b.2.1
      match r.2.2 with
      | some (.failure msg) =>
          (r.1, r.2.1, some (.failure ("failed to load configuration: " ++ msg)))
      | some pe => (r.1, r.2.1, some pe)
      | none =>
          match r.1.Missing with
          | [] => (r.1, r.2.1, none)
          | miss => (r.1, r.2.1,
              some (.failure ("missing configuration parameters: " ++ goJoin ", " miss)))

/-- `LoadEnv(cfg, getenv)`: `Load` with a single environment source wrapped
in a priority composer by `WithProviders`. -/
def LoadEnv (record : List Field) (getenv : String → String) (h : Heap) :
    Prov × Heap × Option Err :=
  Load record (.prio (NewPriorityProvider [.envm (NewEnvProvider getenv)])) h

/-- `LoadFlags(cfg, args)`: `Load` with a single flag source wrapped in a
priority composer. -/
def LoadFlags (record : List Field) (args : List String) (h : Heap) :
    Prov × Heap × Option Err :=
  Load record (.prio (NewPriorityProvider [.flagm (NewFlagProvider args)])) h

/-- The destinations of `t'` and `t` do not alias: pointers of the same
primitive kind always differ. -/
def slotsDisjoint (t' t : typ) : Prop :=
  (∀ a b, t'.stringVal = some a → t.stringVal = some b → a ≠ b) ∧
  (∀ a b, t'.intVal = some a → t.intVal = some b → a ≠ b) ∧
  (∀ a b, t'.boolVal = some a → t.boolVal = some b → a ≠ b)

/-- `h'` agrees with `h` on every slot `t` points at. -/
def slotPreserved (t : typ) (h h' : Heap) : Prop :=
  (∀ a, t.stringVal = some a → h'.strs a = h.strs a) ∧
  (∀ a, t.intVal = some a → h'.ints a = h.ints a) ∧
  (∀ a, t.boolVal = some a → h'.bools a = h.bools a)

/-- The default literal of a tag parses under the field's kind, so binding
does not fail on the fallback before reaching the destination pointer. -/
def fallbackOk : Kind → String → Prop
  | .str, _ => True
  | .int, fb => fb = "" ∨ ∃ v, Atoi fb = Except.ok v
  | .bool, fb => fb = "" ∨ ∃ b, ParseBool fb = Except.ok b

/-- Environment of the later-wins scenario: only `FIELD1` is set. -/
def c1getenv : String → String := fun s => if s = "FIELD1" then "value1" else ""

/-- The env member of the later-wins scenario, after registration. -/
def c1envMember : Member :=
  .envm ((NewEnvProvider c1getenv).StringVar 0 "field1" "" true)

/-- The flag member of the later-wins scenario, after registration. -/
def c1flagMember : Member :=
  .flagm ((NewFlagProvider ["--field1", "value2"]).StringVar heap0 0 "field1" "" true).1

/-- The later-wins scenario: a priority composer over `[env, flags]`,
registering the shared slot 0 under `field1` in both members. -/
def c1reg : PriorityProvider × Heap × Option Err :=
  (NewPriorityProvider
    [.envm (NewEnvProvider c1getenv),
     .flagm (NewFlagProvider ["--field1", "value2"])]).StringVar heap0 0 "field1" "" true

/-- An environment source on which the same name is registered twice, first
to slot `a₁` and then to slot `a₂`. -/
def c6env (g : String → String) (a₁ a₂ : Nat) (n fb₁ fb₂ : String) (r₁ r₂ : Bool) :
    EnvProvider :=
  ((NewEnvProvider g).StringVar a₁ n fb₁ r₁).StringVar a₂ n fb₂ r₂

/-- A flag source with a required integer parameter registered and no
arguments: no source can supply the value. -/
def c9flag : FlagProvider :=
  ((NewFlagProvider []).IntVar heap0 0 "i" 0 true).1

/-- A priority composer over one empty-environment member with a required
integer parameter registered: no source supplies the value. -/
def c9prio : PriorityProvider :=
  ((NewPriorityProvider [Member.envm (NewEnvProvider (fun _ => ""))]).IntVar
    heap0 0 "i" 0 true).1

/-- C4 scenario: a text parameter `x` with empty lookup followed by an int
parameter `num` whose environment value `"abc"` fails integer coercion. -/
def c4p : EnvProvider :=
  { getenv := fun s => if s = "NUM" then "abc" else "",
    m := [("x", { kind := Kind.str, stringVal := some 0 }),
          ("num", { kind := Kind.int, intVal := some 1 })],
    fallbacks := [], required := [], missing := [] }

/-- C5 scenario: a single required text parameter `s` with empty lookup and
no fallback. -/
def c5p : EnvProvider :=
  { getenv := fun _ => "",
    m := [("s", { kind := Kind.str, stringVal := some 0 })],
    fallbacks := [], required := ["s"], missing := [] }

/-- C1: in a Priority Composer over the ordered members `[A, B]`, when both
members' loads succeed and both assign a non-empty value to a shared string
slot, the slot's value after the composed load is exactly the value `B`'s
load left there: the later source wins. -/
theorem c1_priority_later_source_wins
    (p : PriorityProvider) (A B A' B' : Member) (h h₁ h₂ : Heap) (a : Nat) (v : String)
    (hp : p.providers = [A, B])
    (hA : A.Load h = (A', h₁, none))
    (hB : B.Load h₁ = (B', h₂, none))
    (_hAassigns : h₁.strs a ≠ "")
    (hBassigns : h₂.strs a = v)
    (_hv : v ≠ "") :
    ((p.Load h).2.1).strs a = v := by
  simp only [PriorityProvider.Load, loadMembers, hp, hA, hB]
  exact hBassigns

/-- Witness for C1: composing `env{FIELD1=value1}` before `flags{--field1
value2}` on shared slot 0; both assign non-empty values and the final slot
holds the flag source's `"value2"`. -/
theorem c1_priority_later_source_wins_witness :
    c1reg.2.2 = none ∧
    ((c1reg.1.Load c1reg.2.1).2.1).strs 0 = "value2" := by
  refine ⟨by decide, ?_⟩
  exact c1_priority_later_source_wins c1reg.1 c1envMember c1flagMember
    ((c1envMember.Load c1reg.2.1).1) ((c1flagMember.Load (c1envMember.Load c1reg.2.1).2.1).1)
    c1reg.2.1 ((c1envMember.Load c1reg.2.1).2.1)
    ((c1flagMember.Load (c1envMember.Load c1reg.2.1).2.1).2.1)
    0 "value2" (by rfl) (by rfl) (by rfl) (by decide) (by decide) (by decide)

/-- C7: the Argument Source stops consuming at the first token that is not a
flag, leaving the remainder verbatim; on the scenario
`["--field1","value1","extra","--field1","value2"]` with `field1` registered
as a required text flag and a remaining-tokens sink configured, load
succeeds, the slot holds `"value1"`, and the sink is invoked exactly once
with `["extra","--field1","value2"]`. -/
theorem c7_flag_stops_at_first_nonflag :
    (∀ (formal : List (String × FlagDef)) (h : Heap) (s : String) (rest : List String),
      s.length < 2 ∨ s.data.head? ≠ some '-' →
      parseLoop formal (s :: rest) h = (h, s :: rest, none)) ∧
    (let p0 := (NewFlagProvider ["--field1", "value1", "extra", "--field1", "value2"]).WithRemainingFunc
     let r1 := p0.StringVar heap0 0 "field1" "" true
     let r := FlagProvider.Load r1.1 r1.2.1
     r1.2.2 = none ∧ r.2.2 = none ∧ r.2.1.strs 0 = "value1" ∧
       r.1.remainingCalls = [["extra", "--field1", "value2"]] ∧
       r.1.fs.args = ["extra", "--field1", "value2"]) := by
  constructor
  · intro formal h s rest hs
    simp only [parseLoop, List.length_cons, parseLoopAux]
    rw [parseStep, if_pos hs]
  · decide

/-- Witness for C7: the general stop-at-non-flag clause applied to the token
`"extra"` in front of `["--field1","value2"]` under an empty flag table. -/
theorem c7_flag_stops_at_first_nonflag_witness :
    parseLoop [] ["extra", "--field1", "value2"] heap0 =
      (heap0, ["extra", "--field1", "value2"], none) :=
  c7_flag_stops_at_first_nonflag.1 [] heap0 "extra" ["--field1", "value2"] (by decide)

/-- C8: the claim is right and the code is wrong — on the dotenv
parse-failure path the stream is neither fully read nor closed when `Load`
returns.  Feeding the two-line stream `["BAD", "A=1"]`, `Load` returns the
wrapped parse error with the reader still at `closed = false` and only one
of its two lines consumed; registration, by contrast, never touches the
reader. -/
theorem c8_dotenv_stream_unclosed_on_parse_failure :
    ((let e := (NewEnvProvider (fun _ => "")).WithDotEnv (some { lines := ["BAD", "A=1"] })
      let r := e.Load heap0
      r.2.2 = some (.failure
        "failed to add .env file: failed to parse .env file: malformed line 1: BAD") ∧
      r.1.dotEnvReader = some { lines := ["BAD", "A=1"], pos := 1, closed := false }) ∧
     (∀ (p : EnvProvider) (a : Nat) (n fb : String) (fbI : Int) (fbB : Bool) (req : Bool),
       (p.StringVar a n fb req).dotEnvReader = p.dotEnvReader ∧
       (p.IntVar a n fbI req).dotEnvReader = p.dotEnvReader ∧
       (p.BoolVar a n fbB req).dotEnvReader = p.dotEnvReader ∧
       ((NewFlagProvider []).WithRemainingFunc).args = [])) :=
  ⟨by decide, fun _p _a _n _fb _fbI _fbB _req => ⟨rfl, rfl, rfl, rfl⟩⟩

/-- C6 counterexample: on the Argument Source, registering twice under the
same name does not succeed — the second registration panics with Go's
"flag redefined" panic instead of replacing the binding. -/
theorem c6_flag_reregistration_panics :
    (let r1 := (NewFlagProvider []).StringVar heap0 0 "n" "" false
     let r2 := r1.1.StringVar r1.2.1 1 "n" "" false
     r1.2.2 = none ∧ r2.2.2 = some (.gopanic "confflags flag redefined: n")) := by
  decide

/-- C6 (amended): on the Environment Source re-registration under the same
name replaces the prior binding — the registration map holds only the second
destination, load resolves the value into the second slot, and the first
slot is left untouched. -/
theorem c6_env_reregistration_replaces
    (g : String → String) (h : Heap) (a₁ a₂ : Nat) (n fb₁ fb₂ : String)
    (r₁ r₂ : Bool) (v : String)
    (hA : a₁ ≠ a₂) (hg : g (envNormalize n) = v) (hv : v ≠ "") :
    getA (c6env g a₁ a₂ n fb₁ fb₂ r₁ r₂).m n = some { kind := Kind.str, stringVal := some a₂ } ∧
    ((c6env g a₁ a₂ n fb₁ fb₂ r₁ r₂).Load h).2.1.strs a₂ = v ∧
    ((c6env g a₁ a₂ n fb₁ fb₂ r₁ r₂).Load h).2.1.strs a₁ = h.strs a₁ := by
  have hm : (c6env g a₁ a₂ n fb₁ fb₂ r₁ r₂).m =
      [(n, { kind := Kind.str, stringVal := some a₂ })] := by
    simp [c6env, NewEnvProvider, EnvProvider.StringVar, setA]
  have hload : ((c6env g a₁ a₂ n fb₁ fb₂ r₁ r₂).Load h).2.1 = h.setStr a₂ v := by
    simp only [EnvProvider.Load]
    simp only [show (c6env g a₁ a₂ n fb₁ fb₂ r₁ r₂).withDotEnv = false from rfl,
      Bool.false_eq_true, if_false]
    simp only [hm, show (c6env g a₁ a₂ n fb₁ fb₂ r₁ r₂).getenv = g from rfl]
    simp only [envLoop, envStep, envRawOf]
    simp [hg, hv]
  refine ⟨?_, ?_, ?_⟩
  · simp [hm, getA]
  · rw [hload]; simp [Heap.setStr]
  · rw [hload]
    simp only [Heap.setStr]
    simp only [if_neg hA]

/-- Witness for the amended C6: re-registering `n` from slot 0 to slot 1 on
an environment source supplying `"v"`, load writes slot 1 and leaves slot 0
at its initial value. -/
theorem c6_env_reregistration_replaces_witness :
    getA (c6env (fun _ => "v") 0 1 "n" "" "" false false).m "n" =
      some { kind := Kind.str, stringVal := some 1 } ∧
    ((c6env (fun _ => "v") 0 1 "n" "" "" false false).Load heap0).2.1.strs 1 = "v" ∧
    ((c6env (fun _ => "v") 0 1 "n" "" "" false false).Load heap0).2.1.strs 0 = heap0.strs 0 :=
  c6_env_reregistration_replaces (fun _ => "v") heap0 0 1 "n" "" "" false false "v"
    (by decide) rfl (by decide)

/-- C3 counterexample: a tagged integer field with default literal `0` that
is also required, absent from every source, makes `Load` fail with a
missing-parameter error (the Environment Source treats a zero integer
fallback as no fallback); likewise a required text field with an
empty-string default literal. -/
theorem c3_sentinel_defaults_reported_missing :
    (Load [Field.prim true Kind.int "i,required,default=0" 0]
        (.memb (.envm (NewEnvProvider (fun _ => "")))) heap0).2.2 =
      some (.failure "missing configuration parameters: i") ∧
    (LoadEnv [Field.prim true Kind.str "s,required,default=" 0] (fun _ => "") heap0).2.2 =
      some (.failure "missing configuration parameters: s") := by
  decide

lemma Empty_false_of_ptr (t : typ) (h : Heap)
    (ht : (t.kind = Kind.int ∧ t.intVal.isSome = true) ∨
          (t.kind = Kind.bool ∧ t.boolVal.isSome = true)) :
    t.Empty h = false := by
  unfold typ.Empty
  rcases ht with ⟨hk, hs⟩ | ⟨hk, hs⟩ <;> rw [hk]
  · cases ho : t.intVal with
    | none => rw [ho] at hs; simp at hs
    | some a => simp [ho]
  · cases ho : t.boolVal with
    | none => rw [ho] at hs; simp at hs
    | some a => simp [ho]

lemma missingLoop_notmem (h : Heap) (req : List String) :
    ∀ (l : List (String × typ)) (miss : List String) (n : String),
      (∀ t, (n, t) ∈ l → t.Empty h = false) →
      ((n ∈ missingLoop h req l miss) ↔ n ∈ miss) := by
  intro l
  induction l with
  | nil => intro miss n _; simp [missingLoop]
  | cons e rest ih =>
      intro miss n hE
      obtain ⟨n', t'⟩ := e
      have hrest : ∀ t, (n, t) ∈ rest → t.Empty h = false :=
        fun t ht => hE t (List.mem_cons_of_mem _ ht)
      simp only [missingLoop]
      by_cases hc : (t'.Empty h = true ∧ n' ∈ req)
      · rw [if_pos hc, ih (miss ++ [n']) n hrest]
        have hne : n ≠ n' := by
          intro he
          have hf := hE t' (by rw [he]; exact List.mem_cons_self _ _)
          rw [hf] at hc
          exact absurd hc.1 (by simp)
        simp [List.mem_append, hne]
      · rw [if_neg hc]
        exact ih miss n hrest

/-- C9: neither the Argument Source's nor the Priority Composer's post-load
missing computation ever reports a parameter whose registered destination is
an integer or boolean with a non-nil pointer (as every registration through
the API produces): their kind-specific emptiness test is always false, so
the name is never appended. -/
theorem c9_int_bool_destinations_never_missing
    (f : FlagProvider) (P : PriorityProvider) (h hp : Heap) (n : String)
    (hf : ∀ t, (n, t) ∈ f.m →
      (t.kind = Kind.int ∧ t.intVal.isSome = true) ∨
      (t.kind = Kind.bool ∧ t.boolVal.isSome = true))
    (hfm : n ∉ f.missing)
    (hP : ∀ t, (n, t) ∈ P.m →
      (t.kind = Kind.int ∧ t.intVal.isSome = true) ∨
      (t.kind = Kind.bool ∧ t.boolVal.isSome = true))
    (hPm : n ∉ P.missing) :
    n ∉ (f.Load h).1.missing ∧ n ∉ (P.Load hp).1.missing := by
  constructor
  · simp only [FlagProvider.Load]
    cases he : (parseLoop f.fs.formal f.args h).2.2 with
    | none =>
        simp only [he]
        rw [missingLoop_notmem _ _ _ _ _
          (fun t ht => Empty_false_of_ptr t _ (hf t ht))]
        exact hfm
    | some e => cases e <;> simp only [he] <;> exact hfm
  · simp only [PriorityProvider.Load]
    cases he : (loadMembers P.providers hp).2.2 with
    | none =>
        simp only [he]
        rw [missingLoop_notmem _ _ _ _ _
          (fun t ht => Empty_false_of_ptr t _ (hP t ht))]
        exact hPm
    | some e => cases e <;> simp only [he] <;> exact hPm

/-- Witness for C9: a required integer parameter `i` registered on a flag
source with no arguments and on a composer over an empty environment is not
reported missing by either. -/
theorem c9_int_bool_destinations_never_missing_witness :
    "i" ∉ (c9flag.Load heap0).1.missing ∧ "i" ∉ (c9prio.Load heap0).1.missing := by
  refine c9_int_bool_destinations_never_missing c9flag c9prio heap0 heap0 "i" ?_ ?_ ?_ ?_
  · intro t ht
    rw [show c9flag.m = [("i", { kind := Kind.int, intVal := some 0 })] from rfl] at ht
    rw [List.mem_singleton, Prod.mk.injEq] at ht
    rw [ht.2]
    exact Or.inl ⟨rfl, rfl⟩
  · rw [show c9flag.missing = [] from rfl]; simp
  · intro t ht
    rw [show c9prio.m = [("i", { kind := Kind.int, intVal := some 0 })] from rfl] at ht
    rw [List.mem_singleton, Prod.mk.injEq] at ht
    rw [ht.2]
    exact Or.inl ⟨rfl, rfl⟩
  · rw [show c9prio.missing = [] from rfl]; simp

lemma bindFields_append (l₁ l₂ : List Field) :
    ∀ (c : Prov) (h : Heap),
      bindFields c h (l₁ ++ l₂) =
        (match bindFields c h l₁ with
         | (c', h', none) => bindFields c' h' l₂
         | (c', h', some e) => (c', h', some e)) := by
  induction l₁ with
  | nil => intro c h; simp [bindFields]
  | cons f rest ih =>
      intro c h
      simp only [List.cons_append, bindFields]
      cases he : (LoadField c h f).2.2 with
      | none => simp only [he]; exact ih _ _
      | some e => simp [he]

/-- C10: binding a record that contains an unexported field of a supported
primitive kind carrying a non-empty `conf` tag makes `Load` panic (the
`reflect.Value.Interface` panic on unexported fields) rather than return an
error or skip the field — provided the fields before it bind cleanly and the
tag's default literal (if any) parses under the field's kind. -/
theorem c10_unexported_tagged_field_panics
    (fs₁ fs₂ : List Field) (c c₁ : Prov) (h h₁ : Heap) (k : Kind) (tag : String) (a : Nat)
    (hbind : bindFields c h fs₁ = (c₁, h₁, none))
    (htag : tag ≠ "")
    (hfb : fallbackOk k (parseTag tag).2.2) :
    (Load (fs₁ ++ Field.prim false k tag a :: fs₂) c h).2.2 =
      some (.gopanic reflectInterfaceMsg) := by
  have hstep : LoadField c₁ h₁ (Field.prim false k tag a) =
      (c₁, h₁, some (.gopanic reflectInterfaceMsg)) := by
    simp only [LoadField]
    rw [if_neg htag]
    cases k with
    | str => simp
    | int =>
        rcases hfb with hfb | ⟨v, hv⟩
        · simp [hfb]
        · by_cases hfe : (parseTag tag).2.2 = ""
          · simp [hfe]
          · simp [hfe, hv]
    | bool =>
        rcases hfb with hfb | ⟨b, hb⟩
        · simp [hfb]
        · by_cases hfe : (parseTag tag).2.2 = ""
          · simp [hfe]
          · simp [hfe, hb]
  have hb : bindFields c h (fs₁ ++ Field.prim false k tag a :: fs₂) =
      (c₁, h₁, some (.gopanic reflectInterfaceMsg)) := by
    rw [bindFields_append, hbind]
    simp only [bindFields, hstep]
  simp only [Load, hb]

/-- Witness for C10: a record whose only field is unexported, of text kind,
tagged `f,required`, makes `Load` panic on an environment source. -/
theorem c10_unexported_tagged_field_panics_witness :
    (Load [Field.prim false Kind.str "f,required" 0]
        (.memb (.envm (NewEnvProvider (fun _ => "")))) heap0).2.2 =
      some (.gopanic reflectInterfaceMsg) :=
  c10_unexported_tagged_field_panics [] []
    (.memb (.envm (NewEnvProvider (fun _ => ""))))
    (.memb (.envm (NewEnvProvider (fun _ => "")))) heap0 heap0
    Kind.str "f,required" 0 rfl (by decide) trivial

/-- C2: with two required text parameters `alpha` and `beta` that no source
assigns a non-empty value to (the environment lookups are empty and the
slots start empty), the top-level load fails with one aggregate failure that
comma-joins both missing names, and the failure message contains each
parameter's declared name as a substring. -/
theorem c2_missing_required_aggregate_failure
    (g : String → String) (h : Heap)
    (hga : g "ALPHA" = "") (hgb : g "BETA" = "")
    (hh0 : h.strs 0 = "") (hh1 : h.strs 1 = "") :
    (LoadEnv [Field.prim true Kind.str "alpha,required" 0,
              Field.prim true Kind.str "beta,required" 1] g h).2.2 =
      some (.failure ("missing configuration parameters: " ++ goJoin ", " ["alpha", "beta"])) ∧
    (∃ s₁ s₂, "missing configuration parameters: " ++ goJoin ", " ["alpha", "beta"] =
      s₁ ++ "alpha" ++ s₂) ∧
    (∃ s₁ s₂, "missing configuration parameters: " ++ goJoin ", " ["alpha", "beta"] =
      s₁ ++ "beta" ++ s₂) := by
  refine ⟨?_, ⟨"missing configuration parameters: ", ", beta", by decide⟩,
    ⟨"missing configuration parameters: alpha, ", "", by decide⟩⟩
  have hbind : bindFields
      (.prio (NewPriorityProvider [.envm (NewEnvProvider g)])) h
      [Field.prim true Kind.str "alpha,required" 0,
       Field.prim true Kind.str "beta,required" 1] =
    (Prov.prio
      { m := [("alpha", { kind := Kind.str, stringVal := some 0 }),
              ("beta", { kind := Kind.str, stringVal := some 1 })],
        providers := [Member.envm
          { getenv := g,
            m := [("alpha", { kind := Kind.str, stringVal := some 0 }),
                  ("beta", { kind := Kind.str, stringVal := some 1 })],
            required := ["alpha", "beta"] }],
        required := ["alpha", "beta"],
        missing := [] },
     h, none) := rfl
  have hs1 : envStep (fun name => g (envNormalize name)) [] ["alpha", "beta"] "alpha"
      { kind := Kind.str, stringVal := some 0 } [] h = (["alpha"], h, none) := by
    simp only [envStep, envRawOf, getA]
    rw [show g (envNormalize "alpha") = "" from hga]
    simp
  have hs2 : envStep (fun name => g (envNormalize name)) [] ["alpha", "beta"] "beta"
      { kind := Kind.str, stringVal := some 1 } ["alpha"] h = (["alpha", "beta"], h, none) := by
    simp only [envStep, envRawOf, getA]
    rw [show g (envNormalize "beta") = "" from hgb]
    simp
  have hloop : envLoop (fun name => g (envNormalize name)) [] ["alpha", "beta"]
      [("alpha", { kind := Kind.str, stringVal := some 0 }),
       ("beta", { kind := Kind.str, stringVal := some 1 })] [] h =
      (["alpha", "beta"], h, none) := by
    simp only [envLoop, hs1, hs2]
  have hmloop : missingLoop h ["alpha", "beta"]
      [("alpha", { kind := Kind.str, stringVal := some 0 }),
       ("beta", { kind := Kind.str, stringVal := some 1 })] [] = ["alpha", "beta"] := by
    simp [missingLoop, typ.Empty, hh0, hh1]
  rw [LoadEnv]
  rw [Load]
  rw [hbind]
  dsimp only
  simp only [Prov.Load, PriorityProvider.Load, loadMembers, Member.Load, EnvProvider.Load,
    Bool.false_eq_true, if_false]
  simp only [hloop]
  simp only [hmloop, Prov.Missing, PriorityProvider.Missing]

/-- Witness for C2: the empty environment and the all-zero heap instantiate
the hypotheses; the load fails naming both `alpha` and `beta`. -/
theorem c2_missing_required_aggregate_failure_witness :
    (LoadEnv [Field.prim true Kind.str "alpha,required" 0,
              Field.prim true Kind.str "beta,required" 1] (fun _ => "") heap0).2.2 =
      some (.failure ("missing configuration parameters: " ++ goJoin ", " ["alpha", "beta"])) :=
  (c2_missing_required_aggregate_failure (fun _ => "") heap0 rfl rfl rfl rfl).1


lemma digitChar_isDigit {d : Nat} (hd : d < 10) : (digitChar d).isDigit = true := by
  interval_cases d <;> decide

lemma digitChar_toNat {d : Nat} (hd : d < 10) : (digitChar d).toNat = 48 + d := by
  interval_cases d <;> decide

lemma digitsVal_append (l : List Char) (c : Char) :
    digitsVal (l ++ [c]) = digitsVal l * 10 + (c.toNat - 48) := by
  simp [digitsVal, List.foldl_append]

lemma natDigitsAux_spec : ∀ (fuel n : Nat), n < fuel →
    (natDigitsAux fuel n).all Char.isDigit = true ∧
    digitsVal (natDigitsAux fuel n) = n ∧ natDigitsAux fuel n ≠ [] := by
  intro fuel
  induction fuel with
  | zero => intro n hn; omega
  | succ fuel ih =>
      intro n hn
      by_cases h10 : n < 10
      · simp only [natDigitsAux, if_pos h10]
        refine ⟨by simp [digitChar_isDigit h10], ?_, by simp⟩
        simp only [digitsVal, List.foldl]
        rw [digitChar_toNat h10]
        omega
      · simp only [natDigitsAux, if_neg h10]
        have hrec : n / 10 < fuel := by omega
        obtain ⟨ha, hv, _hne⟩ := ih (n / 10) hrec
        refine ⟨?_, ?_, by simp⟩
        · rw [List.all_append]
          simp [ha, digitChar_isDigit (show n % 10 < 10 by omega)]
        · rw [digitsVal_append, hv, digitChar_toNat (show n % 10 < 10 by omega)]
          omega

lemma natDigits_all (n : Nat) : (natDigits n).all Char.isDigit = true :=
  (natDigitsAux_spec (n + 1) n (by omega)).1

lemma digitsVal_natDigits (n : Nat) : digitsVal (natDigits n) = n :=
  (natDigitsAux_spec (n + 1) n (by omega)).2.1

lemma natDigits_ne_nil (n : Nat) : natDigits n ≠ [] :=
  (natDigitsAux_spec (n + 1) n (by omega)).2.2

lemma intToString_ne_empty (i : Int) : intToString i ≠ "" := by
  unfold intToString
  split
  · intro he
    have hd := congrArg String.data he
    simp at hd
  · intro he
    have hd := congrArg String.data he
    exact natDigits_ne_nil _ (by simpa using hd)

lemma Atoi_intToString (i : Int) : Atoi (intToString i) = Except.ok i := by
  unfold intToString
  split
  · next hneg =>
      unfold Atoi
      dsimp only
      rw [if_neg (by decide : ¬('-' = '+')), if_pos rfl,
        if_pos ⟨natDigits_ne_nil _, natDigits_all _⟩]
      have : digitsVal (natDigits i.natAbs) = i.natAbs := digitsVal_natDigits _
      rw [this]
      congr 1
      omega
  · next hpos =>
      obtain ⟨c, cs, hl⟩ : ∃ c cs, natDigits i.toNat = c :: cs := by
        cases hnd : natDigits i.toNat with
        | nil => exact absurd hnd (natDigits_ne_nil _)
        | cons c cs => exact ⟨c, cs, rfl⟩
      have hall : (c :: cs).all Char.isDigit = true := hl ▸ natDigits_all i.toNat
      have hc : c.isDigit = true := by
        have := hall
        rw [List.all_cons] at this
        exact (Bool.and_eq_true _ _).mp this |>.1
      unfold Atoi
      dsimp only
      rw [hl]
      dsimp only
      rw [if_neg (by intro hh; rw [hh] at hc; exact absurd hc (by decide)),
        if_neg (by intro hh; rw [hh] at hc; exact absurd hc (by decide))]
      rw [if_pos hall]
      rw [← hl, digitsVal_natDigits]
      congr 1
      omega

/-- C3 (amended): a default literal in a tag, absent from every source,
round-trips into the final slot and the parameter is never reported missing
(required or not) — for every integer default other than `0`, every text
default other than the empty string, and every boolean default (where an
absent/empty literal parses as `false`); load succeeds in each case and the
slot equals the parsed default. -/
theorem c3_nonsentinel_defaults_round_trip :
    (∀ (tg : String) (g : String → String) (h : Heap) (a : Nat)
       (n fb : String) (req : Bool) (d : Int),
      parseTag tg = (n, req, fb) → tg ≠ "" → Atoi fb = .ok d → d ≠ 0 →
      g (envNormalize n) = "" →
      (Load [Field.prim true Kind.int tg a] (.memb (.envm (NewEnvProvider g))) h).2.2 = none ∧
      (Load [Field.prim true Kind.int tg a] (.memb (.envm (NewEnvProvider g))) h).2.1.ints a = d) ∧
    (∀ (tg : String) (g : String → String) (h : Heap) (a : Nat)
       (n fb : String) (req : Bool),
      parseTag tg = (n, req, fb) → tg ≠ "" → fb ≠ "" →
      g (envNormalize n) = "" →
      (Load [Field.prim true Kind.str tg a] (.memb (.envm (NewEnvProvider g))) h).2.2 = none ∧
      (Load [Field.prim true Kind.str tg a] (.memb (.envm (NewEnvProvider g))) h).2.1.strs a = fb) ∧
    (∀ (tg : String) (g : String → String) (h : Heap) (a : Nat)
       (n fb : String) (req : Bool) (b : Bool),
      parseTag tg = (n, req, fb) → tg ≠ "" →
      ((fb = "" ∧ b = false) ∨ ParseBool fb = .ok b) →
      g (envNormalize n) = "" →
      (Load [Field.prim true Kind.bool tg a] (.memb (.envm (NewEnvProvider g))) h).2.2 = none ∧
      (Load [Field.prim true Kind.bool tg a] (.memb (.envm (NewEnvProvider g))) h).2.1.bools a = b) := by
  refine ⟨?_, ?_, ?_⟩
  · intro tg g h a n fb req d hpt htg hfb hd hg
    have hfbne : fb ≠ "" := by
      intro he
      rw [he] at hfb
      simp [Atoi] at hfb
    have hbind : bindFields (.memb (.envm (NewEnvProvider g))) h [Field.prim true Kind.int tg a] =
        (Prov.memb (Member.envm
          { getenv := g,
            m := [(n, { kind := Kind.int, intVal := some a })],
            fallbacks := [(n, intToString d)],
            required := if req then [n] else [],
            missing := [] }), h, none) := by
      simp only [bindFields, LoadField]
      rw [if_neg htg]
      simp only [hpt]
      rw [if_pos hfbne, hfb]
      simp only [Prov.IntVar, Member.IntVar, EnvProvider.IntVar, NewEnvProvider, setA]
      rw [if_pos hd]
      simp [setA]
    have hstep : envStep (fun name => g (envNormalize name)) [(n, intToString d)]
        (if req then [n] else []) n { kind := Kind.int, intVal := some a } [] h =
        ([], h.setInt a d, none) := by
      simp only [envStep, envRawOf, getA]
      rw [show g (envNormalize n) = "" from hg]
      simp [intToString_ne_empty d, Atoi_intToString]
    have hload : (Load [Field.prim true Kind.int tg a] (.memb (.envm (NewEnvProvider g))) h) =
        (Prov.memb (Member.envm
          { getenv := g,
            m := [(n, { kind := Kind.int, intVal := some a })],
            fallbacks := [(n, intToString d)],
            required := if req then [n] else [],
            missing := [] }), h.setInt a d, none) := by
      rw [Load]
      rw [hbind]
      dsimp only
      simp only [Prov.Load, Member.Load, EnvProvider.Load, Bool.false_eq_true, if_false]
      simp only [envLoop, hstep]
      simp [Prov.Missing, Member.Missing, EnvProvider.Missing]
    rw [hload]
    exact ⟨rfl, by simp [Heap.setInt]⟩
  · intro tg g h a n fb req hpt htg hfbne hg
    have hbind : bindFields (.memb (.envm (NewEnvProvider g))) h [Field.prim true Kind.str tg a] =
        (Prov.memb (Member.envm
          { getenv := g,
            m := [(n, { kind := Kind.str, stringVal := some a })],
            fallbacks := [(n, fb)],
            required := if req then [n] else [],
            missing := [] }), h, none) := by
      simp only [bindFields, LoadField]
      rw [if_neg htg]
      simp only [hpt]
      simp only [Prov.StringVar, Member.StringVar, EnvProvider.StringVar, NewEnvProvider, setA]
      rw [if_pos hfbne]
      simp [setA]
    have hstep : envStep (fun name => g (envNormalize name)) [(n, fb)]
        (if req then [n] else []) n { kind := Kind.str, stringVal := some a } [] h =
        ([], h.setStr a fb, none) := by
      simp only [envStep, envRawOf, getA]
      rw [show g (envNormalize n) = "" from hg]
      simp [hfbne]
    have hload : (Load [Field.prim true Kind.str tg a] (.memb (.envm (NewEnvProvider g))) h) =
        (Prov.memb (Member.envm
          { getenv := g,
            m := [(n, { kind := Kind.str, stringVal := some a })],
            fallbacks := [(n, fb)],
            required := if req then [n] else [],
            missing := [] }), h.setStr a fb, none) := by
      rw [Load]
      rw [hbind]
      dsimp only
      simp only [Prov.Load, Member.Load, EnvProvider.Load, Bool.false_eq_true, if_false]
      simp only [envLoop, hstep]
      simp [Prov.Missing, Member.Missing, EnvProvider.Missing]
    rw [hload]
    exact ⟨rfl, by simp [Heap.setStr]⟩
  · intro tg g h a n fb req b hpt htg hb hg
    have hbind : bindFields (.memb (.envm (NewEnvProvider g))) h [Field.prim true Kind.bool tg a] =
        (Prov.memb (Member.envm
          { getenv := g,
            m := [(n, { kind := Kind.bool, boolVal := some a })],
            fallbacks := [(n, if b then "true" else "false")],
            required := if req then [n] else [],
            missing := [] }), h, none) := by
      simp only [bindFields, LoadField]
      rw [if_neg htg]
      simp only [hpt]
      rcases hb with ⟨hfe, hbf⟩ | hPB
      · subst hbf
        rw [hfe]
        simp only [Prov.BoolVar, Member.BoolVar, EnvProvider.BoolVar, NewEnvProvider, setA]
        simp [setA]
      · have hfbne : fb ≠ "" := by
          intro he
          rw [he] at hPB
          simp [ParseBool] at hPB
        rw [if_pos hfbne, hPB]
        simp only [Prov.BoolVar, Member.BoolVar, EnvProvider.BoolVar, NewEnvProvider, setA]
        simp [setA]
    have hstep : envStep (fun name => g (envNormalize name)) [(n, if b then "true" else "false")]
        (if req then [n] else []) n { kind := Kind.bool, boolVal := some a } [] h =
        ([], h.setBool a b, none) := by
      simp only [envStep, envRawOf, getA]
      rw [show g (envNormalize n) = "" from hg]
      cases b <;> simp [ParseBool]
    have hload : (Load [Field.prim true Kind.bool tg a] (.memb (.envm (NewEnvProvider g))) h) =
        (Prov.memb (Member.envm
          { getenv := g,
            m := [(n, { kind := Kind.bool, boolVal := some a })],
            fallbacks := [(n, if b then "true" else "false")],
            required := if req then [n] else [],
            missing := [] }), h.setBool a b, none) := by
      rw [Load]
      rw [hbind]
      dsimp only
      simp only [Prov.Load, Member.Load, EnvProvider.Load, Bool.false_eq_true, if_false]
      simp only [envLoop, hstep]
      simp [Prov.Missing, Member.Missing, EnvProvider.Missing]
    rw [hload]
    exact ⟨rfl, by simp [Heap.setBool]⟩

/-- Witness for the amended C3: `default=5` on a required int field yields 5,
`default=hello` on a required text field yields `"hello"`, and
`default=true` on a bool field yields `true`, all against an empty
environment, with load succeeding each time. -/
theorem c3_nonsentinel_defaults_round_trip_witness :
    ((Load [Field.prim true Kind.int "i,required,default=5" 0]
        (.memb (.envm (NewEnvProvider (fun _ => "")))) heap0).2.2 = none ∧
     (Load [Field.prim true Kind.int "i,required,default=5" 0]
        (.memb (.envm (NewEnvProvider (fun _ => "")))) heap0).2.1.ints 0 = 5) ∧
    ((Load [Field.prim true Kind.str "s,required,default=hello" 0]
        (.memb (.envm (NewEnvProvider (fun _ => "")))) heap0).2.2 = none ∧
     (Load [Field.prim true Kind.str "s,required,default=hello" 0]
        (.memb (.envm (NewEnvProvider (fun _ => "")))) heap0).2.1.strs 0 = "hello") ∧
    ((Load [Field.prim true Kind.bool "b,default=true" 0]
        (.memb (.envm (NewEnvProvider (fun _ => "")))) heap0).2.2 = none ∧
     (Load [Field.prim true Kind.bool "b,default=true" 0]
        (.memb (.envm (NewEnvProvider (fun _ => "")))) heap0).2.1.bools 0 = true) :=
  ⟨c3_nonsentinel_defaults_round_trip.1 "i,required,default=5" (fun _ => "") heap0 0
     "i" "5" true 5 (by decide) (by decide) rfl (by decide) rfl,
   c3_nonsentinel_defaults_round_trip.2.1 "s,required,default=hello" (fun _ => "") heap0 0
     "s" "hello" true (by decide) (by decide) (by decide) rfl,
   c3_nonsentinel_defaults_round_trip.2.2 "b,default=true" (fun _ => "") heap0 0
     "b" "true" false true (by decide) (by decide) (Or.inr rfl) rfl⟩

lemma envLoop_append (g : String → String) (fb : List (String × String)) (req : List String)
    (l₁ l₂ : List (String × typ)) :
    ∀ (miss : List String) (h : Heap),
      envLoop g fb req (l₁ ++ l₂) miss h =
        (match envLoop g fb req l₁ miss h with
         | (m₁, h₁, none) => envLoop g fb req l₂ m₁ h₁
         | (m₁, h₁, some e) => (m₁, h₁, some e)) := by
  induction l₁ with
  | nil => intro miss h; simp [envLoop]
  | cons e rest ih =>
      intro miss h
      obtain ⟨n, t⟩ := e
      simp only [List.cons_append, envLoop]
      cases hs : (envStep g fb req n t miss h).2.2 with
      | none => simp only [hs]; exact ih _ _
      | some er => simp [hs]

lemma envStep_missing (g : String → String) (fb : List (String × String)) (req : List String)
    (n : String) (t : typ) (miss : List String) (h : Heap) :
    (envStep g fb req n t miss h).1 = miss ∨ (envStep g fb req n t miss h).1 = miss ++ [n] := by
  simp only [envStep]
  by_cases hr : envRawOf g fb n = ""
  · rw [if_pos hr]
    by_cases hq : n ∈ req
    · right; rw [if_pos hq]
    · left; rw [if_neg hq]
  · rw [if_neg hr]
    rcases t with ⟨k, iv, sv, bv⟩
    cases k
    · cases sv <;> simp
    · cases hA : Atoi (envRawOf g fb n)
      · simp
      · cases iv <;> simp
    · cases hA : ParseBool (envRawOf g fb n)
      · simp
      · cases bv <;> simp

lemma envStep_empty_raw (g : String → String) (fb : List (String × String)) (req : List String)
    (n : String) (t : typ) (miss : List String) (h : Heap)
    (hr : envRawOf g fb n = "") :
    envStep g fb req n t miss h = (if n ∈ req then miss ++ [n] else miss, h, none) := by
  simp only [envStep]
  rw [if_pos hr]

lemma envStep_int_parse_error (g : String → String) (fb : List (String × String))
    (req : List String) (n : String) (t : typ) (miss : List String) (h : Heap) (e : String)
    (hr : envRawOf g fb n ≠ "") (hk : t.kind = Kind.int)
    (hA : Atoi (envRawOf g fb n) = .error e) :
    envStep g fb req n t miss h =
      (miss, h, some (.failure ("failed to parse " ++ n ++ " as int: " ++ e))) := by
  simp only [envStep]
  rw [if_neg hr, hk, hA]

lemma envStep_bool_parse_error (g : String → String) (fb : List (String × String))
    (req : List String) (n : String) (t : typ) (miss : List String) (h : Heap) (e : String)
    (hr : envRawOf g fb n ≠ "") (hk : t.kind = Kind.bool)
    (hA : ParseBool (envRawOf g fb n) = .error e) :
    envStep g fb req n t miss h =
      (miss, h, some (.failure ("failed to parse " ++ n ++ " as bool: " ++ e))) := by
  simp only [envStep]
  rw [if_neg hr, hk, hA]

lemma envLoop_missing_sub (g : String → String) (fb : List (String × String))
    (req : List String) :
    ∀ (l : List (String × typ)) (miss : List String) (h : Heap) (x : String),
      x ∈ (envLoop g fb req l miss h).1 → x ∈ miss ∨ x ∈ l.map Prod.fst := by
  intro l
  induction l with
  | nil => intro miss h x hx; left; simpa [envLoop] using hx
  | cons e rest ih =>
      intro miss h x hx
      obtain ⟨n, t⟩ := e
      simp only [envLoop] at hx
      have hsm := envStep_missing g fb req n t miss h
      cases hs : (envStep g fb req n t miss h).2.2 with
      | some er =>
          rw [hs] at hx
          simp only at hx
          rcases hsm with h1 | h1 <;> rw [h1] at hx
          · exact Or.inl hx
          · rcases List.mem_append.mp hx with h2 | h2
            · exact Or.inl h2
            · right; simp [List.mem_singleton.mp h2]
      | none =>
          rw [hs] at hx
          simp only at hx
          rcases ih _ _ _ hx with h2 | h2
          · rcases hsm with h1 | h1 <;> rw [h1] at h2
            · exact Or.inl h2
            · rcases List.mem_append.mp h2 with h3 | h3
              · exact Or.inl h3
              · right; simp [List.mem_singleton.mp h3]
          · right; simp [h2]

lemma envLoop_missing_notmem (g : String → String) (fb : List (String × String))
    (req : List String) :
    ∀ (l : List (String × typ)) (miss : List String) (h : Heap) (n : String),
      n ∉ l.map Prod.fst →
      ((n ∈ (envLoop g fb req l miss h).1) ↔ n ∈ miss) := by
  intro l
  induction l with
  | nil => intro miss h n _; simp [envLoop]
  | cons e rest ih =>
      intro miss h n hk
      obtain ⟨n', t'⟩ := e
      have hne : n ≠ n' := by
        intro he; exact hk (by simp [he])
      have hkr : n ∉ rest.map Prod.fst := by
        intro he; exact hk (by simp [he])
      have hsm := envStep_missing g fb req n' t' miss h
      have hmem : (n ∈ (envStep g fb req n' t' miss h).1) ↔ n ∈ miss := by
        rcases hsm with h1 | h1 <;> simp [h1, List.mem_append, hne]
      simp only [envLoop]
      cases hs : (envStep g fb req n' t' miss h).2.2 with
      | some er => simpa using hmem
      | none => simpa using (ih _ _ n hkr).trans hmem
lemma slotPreserved_refl (t : typ) (h : Heap) : slotPreserved t h h :=
  ⟨fun _ _ => rfl, fun _ _ => rfl, fun _ _ => rfl⟩

lemma slotPreserved_trans {t : typ} {h₁ h₂ h₃ : Heap}
    (p : slotPreserved t h₁ h₂) (q : slotPreserved t h₂ h₃) : slotPreserved t h₁ h₃ :=
  ⟨fun a ha => (q.1 a ha).trans (p.1 a ha),
   fun a ha => (q.2.1 a ha).trans (p.2.1 a ha),
   fun a ha => (q.2.2 a ha).trans (p.2.2 a ha)⟩

lemma slotPreserved_setStr (t : typ) (h : Heap) (a : Nat) (v : String)
    (ha : ∀ b, t.stringVal = some b → a ≠ b) : slotPreserved t h (h.setStr a v) := by
  refine ⟨fun b hb => ?_, fun b _ => rfl, fun b _ => rfl⟩
  simp only [Heap.setStr]
  rw [if_neg ?_]
  intro hba
  exact ha b hb hba.symm

lemma slotPreserved_setInt (t : typ) (h : Heap) (a : Nat) (v : Int)
    (ha : ∀ b, t.intVal = some b → a ≠ b) : slotPreserved t h (h.setInt a v) := by
  refine ⟨fun b _ => rfl, fun b hb => ?_, fun b _ => rfl⟩
  simp only [Heap.setInt]
  rw [if_neg ?_]
  intro hba
  exact ha b hb hba.symm

lemma slotPreserved_setBool (t : typ) (h : Heap) (a : Nat) (v : Bool)
    (ha : ∀ b, t.boolVal = some b → a ≠ b) : slotPreserved t h (h.setBool a v) := by
  refine ⟨fun b _ => rfl, fun b _ => rfl, fun b hb => ?_⟩
  simp only [Heap.setBool]
  rw [if_neg ?_]
  intro hba
  exact ha b hb hba.symm

lemma envStep_frame (g : String → String) (fb : List (String × String)) (req : List String)
    (n : String) (t' : typ) (miss : List String) (h : Heap) (t : typ)
    (hd : slotsDisjoint t' t) :
    slotPreserved t h (envStep g fb req n t' miss h).2.1 := by
  simp only [envStep]
  by_cases hr : envRawOf g fb n = ""
  · rw [if_pos hr]
    exact slotPreserved_refl t h
  · rw [if_neg hr]
    rcases t' with ⟨k, iv, sv, bv⟩
    cases k
    · cases sv with
      | none => exact slotPreserved_refl t h
      | some a => exact slotPreserved_setStr t h a _ (fun b hb => hd.1 a b rfl hb)
    · cases hA : Atoi (envRawOf g fb n) with
      | error e => exact slotPreserved_refl t h
      | ok v =>
          cases iv with
          | none => exact slotPreserved_refl t h
          | some a => exact slotPreserved_setInt t h a v (fun b hb => hd.2.1 a b rfl hb)
    · cases hA : ParseBool (envRawOf g fb n) with
      | error e => exact slotPreserved_refl t h
      | ok v =>
          cases bv with
          | none => exact slotPreserved_refl t h
          | some a => exact slotPreserved_setBool t h a v (fun b hb => hd.2.2 a b rfl hb)

lemma envLoop_frame (g : String → String) (fb : List (String × String)) (req : List String)
    (t : typ) :
    ∀ (l : List (String × typ)) (miss : List String) (h : Heap),
      (∀ n' t', (n', t') ∈ l → slotsDisjoint t' t) →
      slotPreserved t h (envLoop g fb req l miss h).2.1 := by
  intro l
  induction l with
  | nil => intro miss h _; simpa [envLoop] using slotPreserved_refl t h
  | cons e rest ih =>
      intro miss h hD
      obtain ⟨n', t'⟩ := e
      have hstep := envStep_frame g fb req n' t' miss h t (hD n' t' (by simp))
      simp only [envLoop]
      cases hs : (envStep g fb req n' t' miss h).2.2 with
      | some er => simpa using hstep
      | none =>
          have hrest := ih (envStep g fb req n' t' miss h).1
            (envStep g fb req n' t' miss h).2.1
            (fun n'' t'' ht => hD n'' t'' (List.mem_cons_of_mem _ ht))
          simpa using slotPreserved_trans hstep hrest

lemma nodup_split_facts (m₁ m₂ : List (String × typ)) (n : String) (t : typ)
    (hnd : ((m₁ ++ (n, t) :: m₂).map Prod.fst).Nodup) :
    n ∉ m₁.map Prod.fst ∧ n ∉ m₂.map Prod.fst := by
  rw [List.map_append, List.nodup_append] at hnd
  refine ⟨fun hx => ?_, fun hx => ?_⟩
  · exact hnd.2.2 hx (by simp)
  · rcases hnd.2.1 with hcons
    rw [List.map_cons, List.nodup_cons] at hcons
    exact hcons.1 hx
lemma EnvLoad_no_dotenv (p : EnvProvider) (h : Heap) (hdot : p.withDotEnv = false) :
    p.Load h =
      ({ p with missing := (envLoop (fun s => p.getenv (envNormalize s)) p.fallbacks
            p.required p.m p.missing h).1 },
       (envLoop (fun s => p.getenv (envNormalize s)) p.fallbacks
            p.required p.m p.missing h).2.1,
       (envLoop (fun s => p.getenv (envNormalize s)) p.fallbacks
            p.required p.m p.missing h).2.2) := by
  simp only [EnvProvider.Load, hdot, Bool.false_eq_true, if_false]

/-- C4: when a registered parameter's resolved raw value (lookup with
fallback substitution) is non-empty but fails integer or boolean coercion,
and the parameters iterated before it resolve without error, the Environment
Source's load aborts immediately with a parse error that names the offending
parameter (the name occurs in the message), and the parameter is not in the
missing list. -/
theorem c4_coercion_failure_aborts
    (p : EnvProvider) (h : Heap) (m₁ m₂ : List (String × typ)) (n : String) (t : typ)
    (miss₁ : List String) (h₁ : Heap)
    (hdot : p.withDotEnv = false)
    (hm : p.m = m₁ ++ (n, t) :: m₂)
    (hnd : (p.m.map Prod.fst).Nodup)
    (hmiss0 : n ∉ p.missing)
    (hpre : envLoop (fun s => p.getenv (envNormalize s)) p.fallbacks p.required m₁
      p.missing h = (miss₁, h₁, none))
    (hraw : envRawOf (fun s => p.getenv (envNormalize s)) p.fallbacks n ≠ "") :
    (∀ e, t.kind = Kind.int →
      Atoi (envRawOf (fun s => p.getenv (envNormalize s)) p.fallbacks n) = .error e →
      p.Load h = ({ p with missing := miss₁ }, h₁,
        some (.failure ("failed to parse " ++ n ++ " as int: " ++ e))) ∧
      n ∉ miss₁ ∧
      (∃ s₁ s₂, "failed to parse " ++ n ++ " as int: " ++ e = s₁ ++ n ++ s₂)) ∧
    (∀ e, t.kind = Kind.bool →
      ParseBool (envRawOf (fun s => p.getenv (envNormalize s)) p.fallbacks n) = .error e →
      p.Load h = ({ p with missing := miss₁ }, h₁,
        some (.failure ("failed to parse " ++ n ++ " as bool: " ++ e))) ∧
      n ∉ miss₁ ∧
      (∃ s₁ s₂, "failed to parse " ++ n ++ " as bool: " ++ e = s₁ ++ n ++ s₂)) := by
  have hnotm : n ∉ miss₁ := by
    intro hx
    rcases envLoop_missing_sub (fun s => p.getenv (envNormalize s)) p.fallbacks p.required
        m₁ p.missing h n (by rw [hpre]; exact hx) with h1 | h1
    · exact hmiss0 h1
    · exact (nodup_split_facts m₁ m₂ n t (by rwa [hm] at hnd)).1 h1
  constructor
  · intro e hk hA
    have hstep := envStep_int_parse_error (fun s => p.getenv (envNormalize s)) p.fallbacks
      p.required n t miss₁ h₁ e hraw hk hA
    refine ⟨?_, hnotm, "failed to parse ", " as int: " ++ e, String.append_assoc _ _ _⟩
    have hfull : envLoop (fun s => p.getenv (envNormalize s)) p.fallbacks p.required p.m
        p.missing h = (miss₁, h₁,
          some (.failure ("failed to parse " ++ n ++ " as int: " ++ e))) := by
      rw [hm, envLoop_append, hpre]
      simp only [envLoop, hstep]
    rw [EnvLoad_no_dotenv p h hdot, hfull]
  · intro e hk hA
    have hstep := envStep_bool_parse_error (fun s => p.getenv (envNormalize s)) p.fallbacks
      p.required n t miss₁ h₁ e hraw hk hA
    refine ⟨?_, hnotm, "failed to parse ", " as bool: " ++ e, String.append_assoc _ _ _⟩
    have hfull : envLoop (fun s => p.getenv (envNormalize s)) p.fallbacks p.required p.m
        p.missing h = (miss₁, h₁,
          some (.failure ("failed to parse " ++ n ++ " as bool: " ++ e))) := by
      rw [hm, envLoop_append, hpre]
      simp only [envLoop, hstep]
    rw [EnvLoad_no_dotenv p h hdot, hfull]
/-- C5: for a registered parameter (any kind) whose environment lookup and
fallback both resolve to the empty string, the Environment Source's load
leaves the parameter's destination slot exactly as it was (also when some
other parameter aborts the load), and — when the load succeeds — the name is
in the missing list exactly when the parameter is required. -/
theorem c5_empty_resolution_leaves_slot_unchanged
    (p : EnvProvider) (h : Heap) (n : String) (t : typ)
    (hdot : p.withDotEnv = false)
    (hmem : (n, t) ∈ p.m)
    (hnd : (p.m.map Prod.fst).Nodup)
    (hraw : envRawOf (fun s => p.getenv (envNormalize s)) p.fallbacks n = "")
    (hdisj : ∀ n' t', (n', t') ∈ p.m → n' ≠ n → slotsDisjoint t' t) :
    slotPreserved t h (p.Load h).2.1 ∧
    ((p.Load h).2.2 = none → p.missing = [] →
      ((n ∈ (p.Load h).1.missing) ↔ n ∈ p.required)) := by
  obtain ⟨m₁, m₂, hm⟩ := List.append_of_mem hmem
  have hnf := nodup_split_facts m₁ m₂ n t (by rwa [hm] at hnd)
  have hd₁ : ∀ n' t', (n', t') ∈ m₁ → slotsDisjoint t' t := by
    intro n' t' ht
    refine hdisj n' t' (by rw [hm]; exact List.mem_append_left _ ht) ?_
    intro he
    exact hnf.1 (he ▸ List.mem_map_of_mem Prod.fst ht)
  have hd₂ : ∀ n' t', (n', t') ∈ m₂ → slotsDisjoint t' t := by
    intro n' t' ht
    refine hdisj n' t' (by rw [hm]; exact List.mem_append_right _ (List.mem_cons_of_mem _ ht)) ?_
    intro he
    exact hnf.2 (he ▸ List.mem_map_of_mem Prod.fst ht)
  rw [EnvLoad_no_dotenv p h hdot]
  dsimp only
  rw [hm, envLoop_append]
  rcases hE : envLoop (fun s => p.getenv (envNormalize s)) p.fallbacks p.required m₁
      p.missing h with ⟨miss₁, h₁, e₁⟩
  have hf₁ : slotPreserved t h h₁ := by
    have hfr := envLoop_frame (fun s => p.getenv (envNormalize s)) p.fallbacks p.required t
      m₁ p.missing h hd₁
    rw [hE] at hfr
    exact hfr
  have hstep := envStep_empty_raw (fun s => p.getenv (envNormalize s)) p.fallbacks
    p.required n t miss₁ h₁ hraw
  cases e₁ with
  | some er =>
      refine ⟨hf₁, ?_⟩
      intro hok
      simp at hok
  | none =>
      dsimp only
      simp only [envLoop, hstep]
      constructor
      · refine slotPreserved_trans hf₁ ?_
        exact envLoop_frame (fun s => p.getenv (envNormalize s)) p.fallbacks p.required t
          m₂ _ h₁ hd₂
      · intro _hok hm0
        rw [envLoop_missing_notmem (fun s => p.getenv (envNormalize s)) p.fallbacks
          p.required m₂ _ h₁ n hnf.2]
        have hmiss₁ : n ∉ miss₁ := by
          intro hx
          rcases envLoop_missing_sub (fun s => p.getenv (envNormalize s)) p.fallbacks
              p.required m₁ p.missing h n (by rw [hE]; exact hx) with h1 | h1
          · rw [hm0] at h1; simp at h1
          · exact hnf.1 h1
        by_cases hq : n ∈ p.required
        · rw [if_pos hq]
          simp [List.mem_append, hq]
        · rw [if_neg hq]
          simp [hmiss₁, hq]
/-- Witness for C4: on the concrete scenario the load aborts with the int
parse error naming `num`, and `num` is not reported missing. -/
theorem c4_coercion_failure_aborts_witness :
    (c4p.Load heap0).2.2 = some (.failure
      ("failed to parse num as int: strconv.Atoi: parsing \x22abc\x22: invalid syntax")) ∧
    "num" ∉ (c4p.Load heap0).1.missing := by
  have H := (c4_coercion_failure_aborts c4p heap0
    [("x", { kind := Kind.str, stringVal := some 0 })] []
    "num" { kind := Kind.int, intVal := some 1 } [] heap0
    rfl rfl (by decide) (by decide) rfl (by decide)).1
    "strconv.Atoi: parsing \x22abc\x22: invalid syntax" rfl rfl
  refine ⟨?_, ?_⟩
  · rw [H.1]
    rfl
  · rw [H.1]
    exact H.2.1

/-- Witness for C5: the required text parameter `s` with empty resolution
leaves slot 0 unchanged and is reported missing. -/
theorem c5_empty_resolution_leaves_slot_unchanged_witness :
    (c5p.Load heap0).2.1.strs 0 = heap0.strs 0 ∧ "s" ∈ (c5p.Load heap0).1.missing := by
  have H := c5_empty_resolution_leaves_slot_unchanged c5p heap0 "s"
    { kind := Kind.str, stringVal := some 0 }
    rfl (by decide) (by decide) (by decide)
    (by
      intro n' t' ht hne
      simp only [show c5p.m = [("s", { kind := Kind.str, stringVal := some 0 })] from rfl,
        List.mem_singleton, Prod.mk.injEq] at ht
      exact absurd ht.1 hne)
  exact ⟨H.1.1 0 rfl, (H.2 rfl rfl).mpr (by decide)⟩

end Conf
